import Mathlib

/-!
Verification development for the cyclejs injectable-dataflow core
(`src/cycle.js` and the modules it re-exports).

`src/cycle.js` is a facade: `createStream` delegates to `Stream.createStream`
(`./stream`), `registerCustomElement` to `./rendering/custom-elements`,
`renderAsHTML` to `./rendering/render-html`, and `vdomPropHook` constructs a
`PropertyHook` (`./property-hook`).  Those modules are not part of the source
tree given here, so their behaviour is modelled from the specification
(sections 3, 4.1, 4.2, 4.3, 6 and 7 of the design document), each such
definition marked `Modelled from the spec:` in its doc comment.

The push-based single-threaded stream semantics is embedded as a small-step
state machine: a `ProxyStream` holds its `bound` source (if any) and its
observer registry; actions are `subscribe`, `bind` and an emission from a
named source; each step returns the new state, the synchronous deliveries it
performed (observer, event pairs, in order) and the errors it signalled.
-/

namespace CycleSpec

/-- An emission on a stream: a value, an error signal, or completion.
Error payloads are reduced to a numeric code. -/
inductive Event (α : Type) where
  | next (v : α)
  | error (e : Nat)
  | completed
  deriving DecidableEq, Repr

/-- The programmer-error taxonomy of section 7 of the spec. -/
inductive CycleError where
  | AlreadyBoundError
  | ArityMismatchError
  | DefinitionContractError
  | DuplicateTagError
  deriving DecidableEq, Repr

/-- Modelled from the spec: `src/stream.js` (the proxy-stream implementation
behind `Stream.createStream`) is not in the given source tree.  Spec section 3:
a ProxyStream has a `bound` flag (here the bound source id, if any) and an
internal subscriber registry, in subscription order. -/
structure ProxyStream where
  bound : Option Nat
  observers : List Nat
  deriving DecidableEq, Repr

/-- A freshly created proxy: unbound, no observers. -/
def ProxyStream.init : ProxyStream := ⟨none, []⟩

/-- Modelled from the spec: one-time `bind` of spec section 4.1.  Binding an
unbound proxy records the source; binding an already-bound proxy signals
`AlreadyBoundError` and leaves the state untouched (first binding stays
authoritative). -/
def bindProxy (p : ProxyStream) (s : Nat) : ProxyStream × List CycleError :=
  match p.bound with
  | some _ => (p, [CycleError.AlreadyBoundError])
  | none => (⟨some s, p.observers⟩, [])

/-- An action applied to a proxy stream: an observer subscribes, a real
source is bound, or source `src` emits event `e` (which the proxy forwards
only when `src` is its bound source). -/
inductive PAction (α : Type) where
  | subscribe (obs : Nat)
  | bind (src : Nat)
  | emit (src : Nat) (e : Event α)
  deriving DecidableEq, Repr

/-- Modelled from the spec: one synchronous step of a proxy stream (spec
section 4.1).  Returns the new state, the deliveries performed synchronously
during the step (pairs of observer id and event, in notification order), and
the errors signalled.  An emission from the bound source is forwarded to every
currently registered observer, in registry order; an emission while unbound,
or from a source other than the bound one, is not forwarded and not buffered. -/
def pstep (p : ProxyStream) : PAction α → ProxyStream × List (Nat × Event α) × List CycleError
  | PAction.subscribe o => (⟨p.bound, p.observers ++ [o]⟩, [], [])
  | PAction.bind s =>
      let r := bindProxy p s
      (r.1, [], r.2)
  | PAction.emit s e =>
      match p.bound with
      | some b => if b = s then (p, p.observers.map (fun o => (o, e)), []) else (p, [], [])
      | none => (p, [], [])

/-- Run a list of actions on a proxy stream, accumulating deliveries and
errors in order. -/
def prun (p : ProxyStream) : List (PAction α) → ProxyStream × List (Nat × Event α) × List CycleError
  | [] => (p, [], [])
  | a :: as =>
      let r1 := pstep p a
      let r2 := prun r1.1 as
      (r2.1, r1.2.1 ++ r2.2.1, r1.2.2 ++ r2.2.2)

/-- The sequence of events a given observer received, extracted from a
delivery log. -/
def deliveredTo (log : List (Nat × Event α)) (o : Nat) : List (Event α) :=
  (log.filter (fun d => d.1 == o)).map (fun d => d.2)

theorem prun_append (p : ProxyStream) (t1 t2 : List (PAction α)) :
    prun p (t1 ++ t2) =
      ((prun (prun p t1).1 t2).1,
       (prun p t1).2.1 ++ (prun (prun p t1).1 t2).2.1,
       (prun p t1).2.2 ++ (prun (prun p t1).1 t2).2.2) := by
  induction t1 generalizing p with
  | nil => simp [prun]
  | cons a as ih => simp [prun, ih, List.append_assoc]

theorem deliveredTo_append (l1 l2 : List (Nat × Event α)) (o : Nat) :
    deliveredTo (l1 ++ l2) o = deliveredTo l1 o ++ deliveredTo l2 o := by
  simp [deliveredTo, List.filter_append]

theorem prun_subscribes (b : Option Nat) (obs subs : List Nat) :
    prun (α := α) ⟨b, obs⟩ (subs.map PAction.subscribe) = (⟨b, obs ++ subs⟩, [], []) := by
  induction subs generalizing obs with
  | nil => simp [prun]
  | cons x xs ih => simp [prun, pstep, ih]

theorem prun_emits_unbound (obs : List Nat) (s : Nat) (pre : List (Event α)) :
    prun ⟨none, obs⟩ (pre.map (PAction.emit s)) = (⟨none, obs⟩, [], []) := by
  induction pre with
  | nil => simp [prun]
  | cons e es ih => simp [prun, pstep, ih]

theorem prun_emits_bound_same (obs : List Nat) (s : Nat) (post : List (Event α)) :
    prun ⟨some s, obs⟩ (post.map (PAction.emit s)) =
      (⟨some s, obs⟩, post.flatMap (fun e => obs.map (fun o => (o, e))), []) := by
  induction post with
  | nil => simp [prun]
  | cons e es ih => simp [prun, pstep, ih]

theorem prun_emits_bound_mixed (obs : List Nat) (b : Nat) (es : List (Nat × Event α)) :
    prun ⟨some b, obs⟩ (es.map (fun x => PAction.emit x.1 x.2)) =
      (⟨some b, obs⟩,
       ((es.filter (fun x => x.1 == b)).map (fun x => x.2)).flatMap
         (fun e => obs.map (fun o => (o, e))),
       []) := by
  induction es with
  | nil => simp [prun]
  | cons x xs ih =>
    by_cases h : b = x.1
    · simp [prun, pstep, ih, ← h]
    · simp [prun, pstep, ih, h, Ne.symm h]

theorem deliveredTo_broadcast (obs : List Nat) (e : Event α) (o : Nat) :
    deliveredTo (obs.map (fun x => (x, e))) o = List.replicate (obs.count o) e := by
  induction obs with
  | nil => simp [deliveredTo]
  | cons x xs ih =>
    by_cases h : x = o
    · simp [deliveredTo, h, List.count_cons, List.replicate_succ] at ih ⊢
      exact ih
    · simp [deliveredTo, h, List.count_cons, Ne.symm h] at ih ⊢
      exact ih

theorem deliveredTo_flatMap_broadcast (obs : List Nat) (es : List (Event α)) (o : Nat)
    (h : obs.count o = 1) :
    deliveredTo (es.flatMap (fun e => obs.map (fun x => (x, e)))) o = es := by
  induction es with
  | nil => simp [deliveredTo]
  | cons e rest ih =>
    rw [List.flatMap_cons, deliveredTo_append, deliveredTo_broadcast, h, ih]
    simp

theorem prun_step_through (p p1 : ProxyStream) (t1 t2 : List (PAction α))
    (d1 : List (Nat × Event α)) (e1 : List CycleError) (h : prun p t1 = (p1, d1, e1)) :
    prun p (t1 ++ t2) =
      ((prun p1 t2).1, d1 ++ (prun p1 t2).2.1, e1 ++ (prun p1 t2).2.2) := by
  rw [prun_append, h]

/-- Whether an action is a `bind`. -/
def PAction.isBind : PAction α → Bool
  | PAction.bind _ => true
  | _ => false

/-- C2: for a proxy `p` and real stream `s`, every observer that subscribed
before `bind(p, s)` (`subs1`) and every observer that subscribed after
(`subs2`) receives exactly the sequence of events `post` that `s` delivers
after the bind, in order, with forwarding performed synchronously at each
emission step; emissions `pre` of `s` before the bind are neither delivered
nor replayed, and no error is signalled. -/
theorem proxy_forwards_source_sequence (s o : Nat) (subs1 subs2 : List Nat)
    (pre post : List (Event α)) (h : (subs1 ++ subs2).count o = 1) :
    deliveredTo (prun ProxyStream.init
      (subs1.map PAction.subscribe ++ pre.map (PAction.emit s) ++ [PAction.bind s]
        ++ subs2.map PAction.subscribe ++ post.map (PAction.emit s))).2.1 o = post
    ∧ (prun ProxyStream.init
      (subs1.map PAction.subscribe ++ pre.map (PAction.emit s) ++ [PAction.bind s]
        ++ subs2.map PAction.subscribe ++ post.map (PAction.emit s))).2.2 = [] := by
  have h1 : prun (α := α) ProxyStream.init (subs1.map PAction.subscribe)
      = (⟨none, subs1⟩, [], []) := by
    simpa [ProxyStream.init] using prun_subscribes (α := α) none [] subs1
  have h2 := prun_emits_unbound subs1 s pre
  have h3 : prun (α := α) ⟨none, subs1⟩ [PAction.bind s] = (⟨some s, subs1⟩, [], []) := by
    simp [prun, pstep, bindProxy]
  have h4 := prun_subscribes (α := α) (some s) subs1 subs2
  have h5 := prun_emits_bound_same (subs1 ++ subs2) s post
  simp only [List.append_assoc]
  rw [prun_step_through _ _ _ _ _ _ h1, prun_step_through _ _ _ _ _ _ h2,
      prun_step_through _ _ _ _ _ _ h3, prun_step_through _ _ _ _ _ _ h4, h5]
  refine ⟨?_, by simp⟩
  simpa [deliveredTo_append, deliveredTo] using
    deliveredTo_flatMap_broadcast (subs1 ++ subs2) post o h

/-- Witness for C2 at a concrete trace: observer 5 subscribes before the bind,
observer 7 after; the source emits one pre-bind value (dropped) and then a
value and completion (both forwarded, in order, with no error). -/
theorem proxy_forwards_source_sequence_witness :
    (([5] ++ [7] : List Nat).count 5 = 1) ∧
    deliveredTo (prun ProxyStream.init
      (([5] : List Nat).map PAction.subscribe
        ++ ([Event.next 1] : List (Event Nat)).map (PAction.emit 0) ++ [PAction.bind 0]
        ++ ([7] : List Nat).map PAction.subscribe
        ++ ([Event.next 2, Event.completed] : List (Event Nat)).map (PAction.emit 0))).2.1 5
      = [Event.next 2, Event.completed] :=
  ⟨by decide,
   (proxy_forwards_source_sequence 0 5 [5] [7] [Event.next 1]
      [Event.next 2, Event.completed] (by decide)).1⟩

/-- C3: a second `bind` on an already-bound proxy signals `AlreadyBoundError`
and the first binding stays authoritative: the proxy stays bound to `s1`, and
in any interleaving `es` of subsequent emissions from arbitrary sources the
observer receives exactly the emissions of `s1`, nothing from the rejected
`s2` or anyone else. -/
theorem bind_twice_first_binding_authoritative (s1 s2 o : Nat)
    (es : List (Nat × Event α)) :
    (prun ⟨none, [o]⟩
        ([PAction.bind s1, PAction.bind s2] ++ es.map (fun x => PAction.emit x.1 x.2))).2.2
      = [CycleError.AlreadyBoundError]
    ∧ (prun ⟨none, [o]⟩
        ([PAction.bind s1, PAction.bind s2] ++ es.map (fun x => PAction.emit x.1 x.2))).1.bound
      = some s1
    ∧ deliveredTo (prun ⟨none, [o]⟩
        ([PAction.bind s1, PAction.bind s2] ++ es.map (fun x => PAction.emit x.1 x.2))).2.1 o
      = (es.filter (fun x => x.1 == s1)).map (fun x => x.2) := by
  have h2 : prun (α := α) ⟨none, [o]⟩ [PAction.bind s1, PAction.bind s2] =
      (⟨some s1, [o]⟩, [], [CycleError.AlreadyBoundError]) := by
    simp [prun, pstep, bindProxy]
  rw [prun_append, h2]
  rw [prun_emits_bound_mixed]
  refine ⟨by simp, by simp, ?_⟩
  simp only [List.nil_append]
  have := deliveredTo_flatMap_broadcast ([o])
      ((es.filter (fun x => x.1 == s1)).map (fun x => x.2)) o (by simp)
  exact this

/-- Witness for C3: proxy bound to source 1, a rejected second bind to
source 2, then interleaved emissions from sources 1 and 2; the observer sees
only source 1's emissions and `AlreadyBoundError` was signalled once. -/
theorem bind_twice_first_binding_authoritative_witness :
    (prun (⟨none, [4]⟩ : ProxyStream)
        ([PAction.bind 1, PAction.bind 2]
          ++ ([(1, Event.next 10), (2, Event.next 99), (1, Event.completed)]
               : List (Nat × Event Nat)).map (fun x => PAction.emit x.1 x.2))).2.2
      = [CycleError.AlreadyBoundError]
    ∧ deliveredTo (prun (⟨none, [4]⟩ : ProxyStream)
        ([PAction.bind 1, PAction.bind 2]
          ++ ([(1, Event.next 10), (2, Event.next 99), (1, Event.completed)]
               : List (Nat × Event Nat)).map (fun x => PAction.emit x.1 x.2))).2.1 4
      = [Event.next 10, Event.completed] :=
  ⟨(bind_twice_first_binding_authoritative 1 2 4
      [(1, Event.next 10), (2, Event.next 99), (1, Event.completed)]).1,
   (bind_twice_first_binding_authoritative 1 2 4
      [(1, Event.next 10), (2, Event.next 99), (1, Event.completed)]).2.2⟩

/-- C6: an unbound proxy is observationally silent, not erroring: on any
trace containing no `bind` action, starting from any unbound state, no
delivery reaches any observer, no error is signalled, and the proxy remains
unbound (never being bound is a valid terminal state). -/
theorem unbound_proxy_silent (obs : List Nat) (trace : List (PAction α))
    (h : ∀ a ∈ trace, a.isBind = false) :
    (prun ⟨none, obs⟩ trace).2.1 = [] ∧ (prun ⟨none, obs⟩ trace).2.2 = []
    ∧ (prun ⟨none, obs⟩ trace).1.bound = none := by
  induction trace generalizing obs with
  | nil => simp [prun]
  | cons a as ih =>
    match a with
    | PAction.subscribe o =>
      have := ih (obs ++ [o]) (fun a ha => h a (List.mem_cons_of_mem _ ha))
      simpa [prun, pstep] using this
    | PAction.bind s =>
      have := h (PAction.bind s) (List.mem_cons_self _ _)
      simp [PAction.isBind] at this
    | PAction.emit s e =>
      have := ih obs (fun a ha => h a (List.mem_cons_of_mem _ ha))
      simpa [prun, pstep] using this

/-- Witness for C6: a never-bound proxy with one observer, where a source
emits value, error and completion signals: nothing at all is delivered. -/
theorem unbound_proxy_silent_witness :
    (∀ a ∈ ([PAction.subscribe 3, PAction.emit 0 (Event.next 7),
             PAction.emit 0 (Event.error 1), PAction.emit 0 Event.completed]
            : List (PAction Nat)), a.isBind = false) ∧
    (prun (⟨none, [9]⟩ : ProxyStream)
        ([PAction.subscribe 3, PAction.emit 0 (Event.next 7),
          PAction.emit 0 (Event.error 1), PAction.emit 0 Event.completed]
         : List (PAction Nat))).2.1 = [] :=
  ⟨by decide,
   (unbound_proxy_silent [9]
      [PAction.subscribe 3, PAction.emit 0 (Event.next 7),
       PAction.emit 0 (Event.error 1), PAction.emit 0 Event.completed]
      (by decide)).1⟩

/-- Modelled from the spec: the InjectableNode of spec section 3 (the object
`Stream.createStream` returns, `src/stream.js` not being in the given source
tree).  It carries the output stream (the definition function's return value,
here of an abstract type `β`) and the node's ProxyStream inputs in declared
order. -/
structure InjectableNode (β : Type) where
  output : β
  inputs : List ProxyStream
  deriving DecidableEq, Repr

/-- Modelled from the spec: `createStream` (the spec's `createInjectable`,
section 4.2).  Given the definition function's arity `k` and the definition
function `f` (taking the ids of its input proxies), it allocates `k` fresh
ProxyStreams, invokes `f` exactly once, synchronously, with all of them, and
returns the node whose output is exactly `f`'s return value.  The second
component is the invocation log of `f`: one entry per call, recording the
proxy ids passed to that call. -/
def createStream (k : Nat) (f : List Nat → β) : InjectableNode β × List (List Nat) :=
  let proxyIds := List.range k
  (⟨f proxyIds, proxyIds.map (fun _ => ProxyStream.init)⟩, [proxyIds])

/-- Modelled from the spec: `inject(...realStreams)` of spec section 4.2.
With a mismatched stream count it signals `ArityMismatchError` and binds
nothing (all-or-nothing); otherwise it binds each positional ProxyStream to
the corresponding real stream through the one-time `bindProxy` rule,
collecting any `AlreadyBoundError`s. -/
def inject (node : InjectableNode β) (streams : List Nat) :
    InjectableNode β × List CycleError :=
  if streams.length = node.inputs.length then
    let rs := (node.inputs.zip streams).map (fun q => bindProxy q.1 q.2)
    (⟨node.output, rs.map (fun r => r.1)⟩, (rs.map (fun r => r.2)).flatten)
  else (node, [CycleError.ArityMismatchError])

/-- A pair of injectable nodes wired to each other in a cycle. -/
structure Wiring (β γ : Type) where
  nodeA : InjectableNode β
  nodeB : InjectableNode γ
  deriving DecidableEq, Repr

/-- Inject real streams into node A of the pair, leaving B untouched. -/
def injectIntoA (w : Wiring β γ) (streams : List Nat) : Wiring β γ × List CycleError :=
  ((⟨(inject w.nodeA streams).1, w.nodeB⟩ : Wiring β γ), (inject w.nodeA streams).2)

/-- Inject real streams into node B of the pair, leaving A untouched. -/
def injectIntoB (w : Wiring β γ) (streams : List Nat) : Wiring β γ × List CycleError :=
  ((⟨w.nodeA, (inject w.nodeB streams).1⟩ : Wiring β γ), (inject w.nodeB streams).2)

/-- C1: for a definition function `f` of arity `k`, `createStream` invokes
`f` exactly once (the invocation log has exactly the one entry, carrying the
`k` allocated proxies), before returning, and the returned node's output is
exactly the value `f` returned on that single invocation; the node carries
the `k` proxy inputs (on which the `inject` operation acts). -/
theorem createStream_invokes_once (k : Nat) (f : List Nat → β) :
    (createStream k f).2.length = 1
    ∧ (createStream k f).2 = [List.range k]
    ∧ (createStream k f).1.output = f (List.range k)
    ∧ (createStream k f).1.inputs.length = k := by
  simp [createStream]

/-- C4: `inject` with a stream count different from the node's declared
input count signals `ArityMismatchError` and leaves the node — every proxy's
bound flag and observer registry — completely unchanged (all-or-nothing). -/
theorem inject_arity_mismatch (node : InjectableNode β) (streams : List Nat)
    (h : streams.length ≠ node.inputs.length) :
    inject node streams = (node, [CycleError.ArityMismatchError]) := by
  simp [inject, h]

/-- Witness for C4: a two-input node injected with one stream. -/
theorem inject_arity_mismatch_witness :
    (([3] : List Nat).length
        ≠ (InjectableNode.mk (0 : Nat) [ProxyStream.init, ProxyStream.init]).inputs.length)
    ∧ inject (InjectableNode.mk (0 : Nat) [ProxyStream.init, ProxyStream.init]) [3]
        = (InjectableNode.mk (0 : Nat) [ProxyStream.init, ProxyStream.init],
           [CycleError.ArityMismatchError]) :=
  ⟨by decide,
   inject_arity_mismatch (InjectableNode.mk (0 : Nat) [ProxyStream.init, ProxyStream.init])
     [3] (by decide)⟩

/-- C5: for two cyclically-coupled nodes, injecting A's output into B and
B's output into A commutes — the resulting wiring state (and each call's
errors) is the same whichever inject is performed first — and neither call
forces evaluation: a bind step performs no deliveries, it only registers the
forwarding rule. -/
theorem cyclic_injection_order_irrelevant (w : Wiring β γ) (aOut bOut : Nat) :
    (injectIntoB (injectIntoA w [bOut]).1 [aOut]).1
        = (injectIntoA (injectIntoB w [aOut]).1 [bOut]).1
    ∧ (injectIntoA w [bOut]).2 = (injectIntoA (injectIntoB w [aOut]).1 [bOut]).2
    ∧ (injectIntoB w [aOut]).2 = (injectIntoB (injectIntoA w [bOut]).1 [aOut]).2
    ∧ (∀ (α : Type) (p : ProxyStream) (s : Nat),
         (pstep (α := α) p (PAction.bind s)).2.1 = []) := by
  refine ⟨by simp [injectIntoA, injectIntoB], by simp [injectIntoA, injectIntoB],
          by simp [injectIntoA, injectIntoB], ?_⟩
  intro α p s
  simp [pstep]

/-- Modelled from the spec: the custom-element registry
(`src/rendering/custom-elements.js` is not in the given source tree).  A
process-scoped mapping from tag name to definition function (definition
functions reduced to numeric ids), kept as an association list in
registration order. -/
def lookupTag (reg : List (String × Nat)) (tag : String) : Option Nat :=
  (reg.find? (fun e => e.1 == tag)).map (fun e => e.2)

/-- Modelled from the spec: `registerCustomElement(tagName, definitionFn)`
(spec section 6).  Registration fails with `DuplicateTagError` when the tag is
already registered, leaving the registry unchanged; otherwise the new entry is
appended. -/
def registerCustomElement (reg : List (String × Nat)) (tag : String) (fnId : Nat) :
    List (String × Nat) × List CycleError :=
  match reg.find? (fun e => e.1 == tag) with
  | some _ => (reg, [CycleError.DuplicateTagError])
  | none => (reg ++ [(tag, fnId)], [])

/-- C7: registering under an already-registered tag signals
`DuplicateTagError`, and the first registration remains active: the registry
is unchanged and still maps the tag to the originally registered definition
function. -/
theorem register_duplicate_tag (reg : List (String × Nat)) (tag : String)
    (f0 fnId : Nat) (h : lookupTag reg tag = some f0) :
    registerCustomElement reg tag fnId = (reg, [CycleError.DuplicateTagError])
    ∧ lookupTag (registerCustomElement reg tag fnId).1 tag = some f0 := by
  have hfind : ∃ e, reg.find? (fun e => e.1 == tag) = some e := by
    rcases Option.map_eq_some'.mp h with ⟨e, he, _⟩
    exact ⟨e, he⟩
  rcases hfind with ⟨e, he⟩
  constructor
  · simp [registerCustomElement, he]
  · simp [registerCustomElement, he, h]

/-- Witness for C7: a registry holding tag "counter" with definition 1;
re-registering "counter" with definition 2 fails and lookups still see 1. -/
theorem register_duplicate_tag_witness :
    lookupTag [("counter", 1)] "counter" = some 1
    ∧ registerCustomElement [("counter", 1)] "counter" 2
        = ([("counter", 1)], [CycleError.DuplicateTagError])
    ∧ lookupTag (registerCustomElement [("counter", 1)] "counter" 2).1 "counter" = some 1 :=
  ⟨by decide,
   (register_duplicate_tag [("counter", 1)] "counter" 1 2 (by decide)).1,
   (register_duplicate_tag [("counter", 1)] "counter" 1 2 (by decide)).2⟩

/-- Modelled from the spec: the custom-element attribute adapter (spec
section 4.3).  `supplied` gives, per attribute name, the event sequence of the
attribute's value stream on a given element occurrence, or `none` when the
attribute is never supplied there; an unsupplied attribute is injected with a
stream that stays silent (emits nothing). -/
def attrInputEvents (supplied : String → Option (List (Event α))) (attr : String) :
    List (Event α) :=
  match supplied attr with
  | some es => es
  | none => []

/-- Modelled from the spec: one rendered occurrence of a custom element whose
definition function declares the attributes `attrs` as inputs (spec
sections 3 and 4.3): the element's InjectableNode, built by `createStream`
from the definition function, together with the per-attribute event sequences
injected into the matching proxies. -/
def customElementOccurrence (attrs : List String) (f : List Nat → β)
    (supplied : String → Option (List (Event α))) :
    InjectableNode β × List (String × List (Event α)) :=
  ((createStream attrs.length f).1, attrs.map (fun a => (a, attrInputEvents supplied a)))

/-- C8: an attribute declared by the definition function but never supplied
on the occurrence is injected with a permanently silent stream — its event
sequence is empty, so no value, error or completion is ever delivered to any
observer of its proxy — while the element's output stream still exists (it is
exactly what the definition function returned). -/
theorem unsupplied_attribute_silent (attrs : List String) (f : List Nat → β)
    (supplied : String → Option (List (Event α))) (a : String)
    (_ha : a ∈ attrs) (h : supplied a = none) :
    attrInputEvents supplied a = []
    ∧ (∀ pr ∈ (customElementOccurrence attrs f supplied).2, pr.1 = a → pr.2 = [])
    ∧ (∀ (p : ProxyStream) (s o : Nat),
         deliveredTo
           (prun p ((attrInputEvents supplied a).map (PAction.emit s))).2.1 o = [])
    ∧ (customElementOccurrence attrs f supplied).1.output = f (List.range attrs.length) := by
  have hev : attrInputEvents supplied a = ([] : List (Event α)) := by
    simp [attrInputEvents, h]
  refine ⟨hev, ?_, ?_, ?_⟩
  · intro pr hpr hpa
    simp [customElementOccurrence] at hpr
    rcases hpr with ⟨x, _, rfl⟩
    simp at hpa
    rw [hpa]
    exact hev
  · intro p s o
    rw [hev]
    simp [prun, deliveredTo]
  · simp [customElementOccurrence, createStream]

/-- Witness for C8: a definition with attributes "label" and "count", where
"count" is never supplied: its input stays silent while the output exists. -/
theorem unsupplied_attribute_silent_witness :
    ("count" ∈ ["label", "count"]
      ∧ (fun a => if a == "label" then some [Event.next 1] else none) "count"
          = (none : Option (List (Event Nat))))
    ∧ attrInputEvents (fun a => if a == "label" then some [Event.next 1] else none) "count"
        = ([] : List (Event Nat))
    ∧ (customElementOccurrence ["label", "count"] (fun ids => ids.length)
         (fun a => if a == "label" then some [Event.next 1] else none)).1.output
        = (List.range 2).length :=
  ⟨⟨by decide, by decide⟩,
   (unsupplied_attribute_silent ["label", "count"] (fun ids => ids.length)
      (fun a => if a == "label" then some [Event.next 1] else none) "count"
      (by decide) (by decide)).1,
   (unsupplied_attribute_silent ["label", "count"] (fun ids => ids.length)
      (fun a => if a == "label" then some [Event.next 1] else none) "count"
      (by decide) (by decide)).2.2.2⟩

/-- Whether a stream's event sequence contains a completion signal, i.e. the
stream completes in finitely many steps. -/
def completesFinitely (es : List (Event α)) : Bool :=
  es.any (fun e => match e with | Event.completed => true | _ => false)

/-- The values a stream emits before its first completion signal. -/
def valuesUntilComplete : List (Event α) → List α
  | [] => []
  | Event.next v :: rest => v :: valuesUntilComplete rest
  | Event.error _ :: rest => valuesUntilComplete rest
  | Event.completed :: _ => []

/-- Modelled from the spec: `renderAsHTML`
(`src/rendering/render-html.js` is not in the given source tree; spec
section 6, serialization sink).  The input virtual-tree stream is an event
sequence over trees of type `α` and `htmlOf` is the tree-to-HTML
serialization; per input stream that completes in finite steps exactly one
HTML string is produced, rendered from the last tree observed before
completion; a stream that never completes yields no string. -/
def renderAsHTML (htmlOf : α → String) (es : List (Event α)) : List String :=
  if completesFinitely es then
    [match (valuesUntilComplete es).getLast? with
     | some v => htmlOf v
     | none => ""]
  else []

/-- C9: `renderAsHTML` produces exactly one HTML string for an input
virtual-tree stream that completes in finite steps, and produces no string at
all when the input stream never completes. -/
theorem renderAsHTML_one_string_iff_completes (htmlOf : α → String)
    (es : List (Event α)) :
    (completesFinitely es = true → (renderAsHTML htmlOf es).length = 1)
    ∧ (completesFinitely es = false → renderAsHTML htmlOf es = []) := by
  constructor
  · intro h
    simp [renderAsHTML, h]
  · intro h
    simp [renderAsHTML, h]

/-- Witness for C9: a stream emitting one tree and completing yields exactly
one string; the same emission without completion yields none. -/
theorem renderAsHTML_one_string_iff_completes_witness :
    completesFinitely ([Event.next 1, Event.completed] : List (Event Nat)) = true
    ∧ (renderAsHTML (fun n => toString n)
        ([Event.next 1, Event.completed] : List (Event Nat))).length = 1
    ∧ completesFinitely ([Event.next 1] : List (Event Nat)) = false
    ∧ renderAsHTML (fun n => toString n) ([Event.next 1] : List (Event Nat)) = [] :=
  ⟨by decide,
   (renderAsHTML_one_string_iff_completes (fun n => toString n)
      [Event.next 1, Event.completed]).1 (by decide),
   by decide,
   (renderAsHTML_one_string_iff_completes (fun n => toString n)
      [Event.next 1]).2 (by decide)⟩

/-- Modelled from the spec: the `PropertyHook` of `src/property-hook.js`
(not in the given source tree; spec section 6, property-hook boundary): an
opaque value wrapping a user callback `fn`.  Object identity of a freshly
constructed hook is modelled by an allocation id. -/
structure PropertyHook (F : Type) where
  allocId : Nat
  fn : F

/-- `vdomPropHook(fn)` of `src/cycle.js`: returns `new PropertyHook(fn)`.
The construction is modelled with an explicit allocator: `alloc` is the next
fresh allocation id, and the call returns the new hook together with the
advanced allocator. -/
def vdomPropHook (alloc : Nat) (fn : F) : PropertyHook F × Nat :=
  (⟨alloc, fn⟩, alloc + 1)

/-- C10: `vdomPropHook fn` always succeeds (it is a total function) and
returns a freshly constructed PropertyHook wrapping exactly `fn`; two
successive calls, even with the same `fn`, return distinct instances. -/
theorem vdomPropHook_fresh_wrapper (alloc : Nat) (fn : F) :
    (vdomPropHook alloc fn).1.fn = fn
    ∧ (vdomPropHook (vdomPropHook alloc fn).2 fn).1.fn = fn
    ∧ (vdomPropHook alloc fn).1 ≠ (vdomPropHook (vdomPropHook alloc fn).2 fn).1 := by
  refine ⟨rfl, rfl, ?_⟩
  intro heq
  have : alloc = alloc + 1 := congrArg PropertyHook.allocId heq
  omega

end CycleSpec
